import Mathlib

/-!
# Shallow embedding of `router/src/validation.rs`

This file embeds the request-admission / preprocessing stage of the
text-generation router (file `router/src/validation.rs`) in Lean 4 and
proves properties of it.

Modelling conventions:
* Rust `String`/`&str` values are `List Char`; byte buffers are `List Nat`.
* `usize`/`u32`/`u64` are `Nat` (no arithmetic in the embedded code comes
  close to wrapping); `i32` (`top_k`) is `Int`.
* `f32` sampling parameters are `ℚ`: the validation code only compares
  them against the constants 0, 1, -2, 2 and these comparisons agree with
  the rational order on every florating-point input.
* Fallible code returns `Except`; Rust panics (`unimplemented!`,
  `unreachable!`) are modelled by the dedicated error `VErr.panicked`.
* External collaborators (the tokenizer capability, the network / ffmpeg
  media fetchers, serde_json, the jsonschema crate and outlines-core) are
  injected as function-valued fields of `Env`, with error types restricted
  to what the corresponding collaborator can actually produce.
-/

/-- Tokenizer encoding: the token ids returned by the tokenizer capability.
`Encoding::len()` in the tokenizers crate is the number of tokens. -/
structure Encoding where
  ids : List Nat
deriving DecidableEq, Repr

/-- `Encoding::len()`. -/
def Encoding.len (e : Encoding) : Nat := e.ids.length

/-- An image chunk: raw bytes plus mimetype (struct `Image`). -/
structure ImageChunk where
  data : List Nat
  mimetype : List Char
deriving DecidableEq, Repr

/-- A video chunk (struct `Video`). -/
structure VideoChunk where
  data : List Nat
  mimetype : List Char
  width : Nat
  height : Nat
  num_frames : Nat
deriving DecidableEq, Repr

/-- The tagged union `Chunk` of `validation.rs`. -/
inductive Chunk where
  | text (s : List Char)
  | image (i : ImageChunk)
  | video (v : VideoChunk)
deriving DecidableEq, Repr

/-- Result of `fetch_video` (struct `ProcessedVideo`). -/
structure ProcessedVideo where
  mimetype : List Char
  height : Nat
  width : Nat
  frames : List (List Nat)
  fps : ℚ
  total_frames : Nat
  sampled_frames : Nat

/-- Errors the image media fetcher (`fetch_image`) can produce:
`InvalidImageContent`, `InvalidBase64`, image decode errors, transport
errors, integer conversion errors. -/
inductive ImageError where
  | invalidImageContent (content : List Char)
  | invalidBase64 (msg : List Char)
  | invalidImage (msg : List Char)
  | failedFetchImage (msg : List Char)
  | invalidInt (msg : List Char)
deriving DecidableEq, Repr

/-- Errors the video media fetcher (`fetch_video`) can produce. -/
inductive VideoError where
  | ffmpegError (msg : List Char)
  | ioError (msg : List Char)
  | invalidVideoContent (content : List Char)
  | invalidBase64 (msg : List Char)
deriving DecidableEq, Repr

/-- The subset of `ValidationError` reachable from the embedded code,
with payloads kept.  `panicked` models a Rust panic
(`unimplemented!`/`unreachable!`), which is not a `ValidationError`
variant but a process-level failure; it is kept separate so that no
claim can confuse a panic with a returned error. -/
inductive VErr where
  | ffmpegError (msg : List Char)
  | ioError (msg : List Char)
  | invalidVideoContent (content : List Char)
  | bestOfSampling
  | bestOfSeed
  | topNTokens (maxv : Nat) (given : Nat)
  | temperature
  | repetitionPenalty
  | frequencyPenalty
  | topP
  | topK
  | truncateErr (maxv : Nat) (given : Nat)
  | typicalP
  | negativeMaxNewTokens
  | maxTotalTokens (maxv : Nat) (inputLength : Nat) (maxNewTokens : Nat)
  | inputLength (maxv : Nat) (given : Nat)
  | emptyInput
  | stopSequence (maxv : Nat) (given : Nat)
  | tokenizer (msg : List Char)
  | grammar
  | invalidGrammar (msg : List Char)
  | regexFromSchema (msg : List Char)
  | invalidBase64 (msg : List Char)
  | invalidImage (msg : List Char)
  | invalidInt (msg : List Char)
  | invalidImageContent (content : List Char)
  | failedFetchImage (msg : List Char)
  | panicked (msg : List Char)
deriving DecidableEq, Repr

/-- Map a `fetch_image` error into `ValidationError` (the `?` operator's
`From` conversions in the source). -/
def ImageError.toVErr : ImageError → VErr
  | .invalidImageContent c => .invalidImageContent c
  | .invalidBase64 m => .invalidBase64 m
  | .invalidImage m => .invalidImage m
  | .failedFetchImage m => .failedFetchImage m
  | .invalidInt m => .invalidInt m

/-- Map a `fetch_video` error into `ValidationError`. -/
def VideoError.toVErr : VideoError → VErr
  | .ffmpegError m => .ffmpegError m
  | .ioError m => .ioError m
  | .invalidVideoContent c => .invalidVideoContent c
  | .invalidBase64 m => .invalidBase64 m

/-- Model config (enum `Config` of `router/src/config.rs`; that file is
not part of the sources, so per the spec each vision family carries its
`get_number_of_features` function as data.  `other` stands for every
remaining variant of the enum. -/
inductive Config where
  | idefics
  | mllama
  | idefics2 (get_number_of_features : Nat → Nat → Nat)
  | paligemma (get_number_of_features : Nat → Nat → Nat)
  | llavaNext (get_number_of_features : Nat → Nat → Nat)
  | qwen2Vl (get_number_of_features : Nat → Nat → Nat)
  | other

/-- `HubPreprocessorConfig` (only the Idefics2 processor is inspected). -/
inductive HubPreprocessorConfig where
  | idefics2Processor (do_image_splitting : Bool)
  | other

/-- JSON values (serde_json `Value`). -/
inductive Json where
  | null
  | bool (b : Bool)
  | num (q : ℚ)
  | str (s : List Char)
  | arr (xs : List Json)
  | obj (fields : List (List Char × Json))

/-- `serde_json::Value::get(key)`: key lookup, objects only. -/
def Json.get (j : Json) (key : List Char) : Option Json :=
  match j with
  | .obj fields => (fields.find? (fun f => f.1 = key)).map (·.2)
  | _ => none

/-- `GrammarType` of the request. -/
inductive GrammarType where
  | json (v : Json)
  | regex (s : List Char)

/-- `ValidGrammar`. -/
inductive ValidGrammar where
  | json (s : List Char)
  | regex (s : List Char)
deriving DecidableEq, Repr

/-- External collaborators and per-worker state, injected as in the
source: the tokenizer capability (`encode_trait`), the media fetchers
(network / base64 / ffmpeg effects live behind them), serde_json's
parser, the jsonschema compiler, outlines-core's schema→regex transform,
the RNG draw used when no seed is supplied, and the worker's clones of
the model / preprocessor configs. -/
structure Env where
  config : Option Config
  preprocessor_config : Option HubPreprocessorConfig
  encode : List Char → Bool → Except (List Char) Encoding
  fetch_image : List Char → Except ImageError (List Nat × List Char × Nat × Nat)
  fetch_video : List Char → Nat → Nat → Except VideoError ProcessedVideo
  parse_json : List Char → Except (List Char) Json
  compile_schema : Json → Except (List Char) Unit
  schema_to_regex : Json → Except (List Char) (List Char)
  rngSeed : Nat

/-! ## Placeholder expansion (`image_tokens`, `video_tokens`, `image_tokens_fixup`) -/

/-- The Idefics2 boundary marker `<fake_token_around_image>`. -/
def FAKE : List Char := "<fake_token_around_image>".toList

/-- The Idefics2 per-slot placeholder `<image>`. -/
def IMAGE : List Char := "<image>".toList

/-- `s.repeat n` for Rust strings / `iter::repeat(s).take(n)`. -/
def repList (n : Nat) (l : List Char) : List Char := (List.replicate n l).flatten

/-- Rust's `{:?}` (Debug) rendering of a `String`: the string wrapped in
double quotes (none of the placeholder strings need escaping). -/
def rustDebugStr (s : List Char) : List Char := '"' :: (s ++ ['"'])

/-- Does the preprocessor config enable Idefics2 image splitting
(the `matches!` at the end of the Idefics2 arm of `image_tokens`)? -/
def isImageSplitting : Option HubPreprocessorConfig → Bool
  | some (.idefics2Processor true) => true
  | _ => false

/-- `image_tokens`: the model-family placeholder expansion for one image.
`none` models the `unimplemented!` panic of the wildcard arm. -/
def image_tokens (config : Config) (preprocessor_config : Option HubPreprocessorConfig)
    (height width : Nat) : Option (List Char) :=
  match config with
  | .idefics => some "<image>".toList
  | .mllama => some "<|image|>".toList
  | .idefics2 get_number_of_features =>
    let slots := get_number_of_features height width
    let image_string := FAKE ++ repList slots IMAGE ++ FAKE
    let image_string :=
      if isImageSplitting preprocessor_config then repList 5 image_string else image_string
    some image_string
  | .paligemma get_number_of_features =>
    some (repList (get_number_of_features height width) "<image>".toList)
  | .llavaNext get_number_of_features =>
    some (repList (get_number_of_features height width) "<image>".toList)
  | .qwen2Vl get_number_of_features =>
    some ("<|vision_start|>".toList
      ++ rustDebugStr (repList (get_number_of_features height width) "<|image_pad|>".toList)
      ++ "<|vision_end|>".toList)
  | .other => none

/-- `video_tokens`: the placeholder expansion for one video.  Only the
Qwen2-VL family is implemented; every other family panics
(`unimplemented!`), modelled by `none`.  The f32 arithmetic
(`max`/`min`/`round`) is exact on the integer frame counts involved, so
`ℚ` is a faithful carrier; Rust's `round` (half away from zero) agrees
with Mathlib's `round` (half up) on nonnegative values. -/
def video_tokens (config : Config) (height width : Nat) (sampled_frames : ℚ) :
    Option (List Char) :=
  match config with
  | .qwen2Vl _ =>
    let min_frames : ℚ := 2
    let max_frames : ℚ := 256
    let nframes : ℚ := min (max sampled_frames min_frames) max_frames
    let nframes : Nat := (round (nframes / 2)).toNat * 2
    let num_tokens : Nat := nframes * height * width / 1541
    some ("<|vision_start|>".toList
      ++ rustDebugStr (repList num_tokens "<|video_pad|>".toList)
      ++ "<|vision_end|>".toList)
  | _ => none

/-- Rust `str::replace(pat, rep)`: scan left to right, non-overlapping;
an empty pattern is treated as matching nowhere (the source only ever
uses the 50-character pattern `FAKE ++ FAKE`). -/
def replaceList (pat rep : List Char) (s : List Char) : List Char :=
  match s with
  | [] => []
  | c :: t =>
    if h : pat ≠ [] ∧ pat <+: (c :: t) then
      rep ++ replaceList pat rep ((c :: t).drop pat.length)
    else
      c :: replaceList pat rep t
termination_by s.length
decreasing_by
  · have hlen : pat.length ≤ t.length + 1 := by simpa using h.2.length_le
    have hpos : 0 < pat.length := List.length_pos.mpr h.1
    simp only [List.length_drop, List.length_cons]
    omega
  · simp [Nat.lt_succ_self]

/-- Number of non-overlapping occurrences of `pat` in `s`, scanning left
to right (the counting used by the fake-token example; `FAKE` cannot
overlap itself, so this is also the plain occurrence count). -/
def countOccs (pat : List Char) (s : List Char) : Nat :=
  match s with
  | [] => 0
  | c :: t =>
    if h : pat ≠ [] ∧ pat <+: (c :: t) then
      1 + countOccs pat ((c :: t).drop pat.length)
    else
      countOccs pat t
termination_by s.length
decreasing_by
  · have hlen : pat.length ≤ t.length + 1 := by simpa using h.2.length_le
    have hpos : 0 < pat.length := List.length_pos.mpr h.1
    simp only [List.length_drop, List.length_cons]
    omega
  · simp [Nat.lt_succ_self]

/-- `image_tokens_fixup`: for Idefics2, collapse doubled boundary
markers (`text.replace("<fake..><fake..>", "<fake..>")`). -/
def image_tokens_fixup (config : Config) (text : List Char) : List Char :=
  match config with
  | .idefics2 _ => replaceList (FAKE ++ FAKE) FAKE text
  | _ => text

/-! ## The regex scans of `prepare_input`

`RE = !\[\]\([^\)]*\)` and `VIDEO_RE = <video>\((https?://[^\)]+)\)`,
with `find_iter` semantics (leftmost, non-overlapping).  Because the
character classes exclude `)`, the greedy match at a position is the
unique one, so a direct scanner is an exact model. -/

/-- Length of the maximal `)`-free prefix. -/
def parenFreeLen : List Char → Nat
  | [] => 0
  | c :: t => if c = ')' then 0 else parenFreeLen t + 1

/-- Length of a match of `!\[\]\([^\)]*\)` at the head of `l`, if any. -/
def imageMatchLen (l : List Char) : Option Nat :=
  if "![](".toList <+: l then
    let rest := l.drop 4
    let k := parenFreeLen rest
    match rest.drop k with
    | ')' :: _ => some (4 + k + 1)
    | _ => none
  else none

/-- Length of a match of `<video>\((https?://[^\)]+)\)` at the head of
`l`, if any. -/
def videoMatchLen (l : List Char) : Option Nat :=
  if "<video>(http".toList <+: l then
    let l1 := l.drop 12
    let sLen := match l1 with
      | 's' :: _ => 1
      | _ => 0
    let l2 := l1.drop sLen
    if "://".toList <+: l2 then
      let l3 := l2.drop 3
      let k := parenFreeLen l3
      if k = 0 then none
      else
        match l3.drop k with
        | ')' :: _ => some (12 + sLen + 3 + k + 1)
        | _ => none
    else none
  else none

/-- `Regex::find_iter`: repeatedly try to match at the current position,
emitting `(start, end)` byte ranges and resuming after each match.  The
fuel is the string length; every step consumes at least one character
(our matchers never return length 0; a 0-length answer stops the scan
to keep the function total). -/
def findIterGo (matchLen : List Char → Option Nat) :
    Nat → List Char → Nat → List (Nat × Nat)
  | 0, _, _ => []
  | _ + 1, [], _ => []
  | fuel + 1, c :: t, pos =>
    match matchLen (c :: t) with
    | some n =>
      if n = 0 then []
      else (pos, pos + n) :: findIterGo matchLen fuel ((c :: t).drop n) (pos + n)
    | none => findIterGo matchLen fuel t (pos + 1)

/-- All matches of a pattern in `s`, as `(start, end)` index ranges. -/
def findIter (matchLen : List Char → Option Nat) (s : List Char) : List (Nat × Nat) :=
  findIterGo matchLen s.length s 0

/-- The slice `inputs[start..stop]`. -/
def subSlice (inputs : List Char) (start stop : Nat) : List Char :=
  (inputs.drop start).take (stop - start)

/-! ## The chunk builder (`prepare_input`) -/

/-- Is the config one of the six vision families matched by
`Some(config @ (Idefics | Mllama | Idefics2(_) | Paligemma(_) |
LlavaNext(_) | Qwen2Vl(_)))`? -/
def Config.isVision : Config → Bool
  | .idefics | .mllama | .idefics2 _ | .paligemma _ | .llavaNext _ | .qwen2Vl _ => true
  | .other => false

/-- The `if chunk_start != start { push Text; push_str }` prologue of
both loop bodies: emit the untouched text before a match as a Text
chunk and append it to the query. -/
def pushText (inputs : List Char) (start chunk_start : Nat)
    (chunks : List Chunk) (query : List Char) : List Chunk × List Char :=
  if chunk_start ≠ start then
    (chunks ++ [Chunk.text (subSlice inputs start chunk_start)],
      query ++ subSlice inputs start chunk_start)
  else (chunks, query)

/-- The `match config` inside the video loop body: the default 224×224
target box for the first five families, 360×420 for Qwen2-VL, and the
`unreachable!` panic otherwise. -/
def fetch_video_for_config (env : Env) (config : Config) (sub : List Char) :
    Except VErr ProcessedVideo :=
  match config with
  | .idefics | .mllama | .idefics2 _ | .paligemma _ | .llavaNext _ =>
    (env.fetch_video sub 224 224).mapError VideoError.toVErr
  | .qwen2Vl _ => (env.fetch_video sub 360 420).mapError VideoError.toVErr
  | .other => .error (.panicked "unreachable".toList)

/-- The `for chunk in VIDEO_RE.find_iter(&inputs)` loop: thread the
cursor `start`, the chunk list and the tokenizer query through the
matches. -/
def videoPass (env : Env) (config : Config) (inputs : List Char) :
    List (Nat × Nat) → Nat → List Chunk → List Char →
    Except VErr (List Chunk × List Char × Nat)
  | [], start, chunks, query => .ok (chunks, query, start)
  | (chunk_start, chunk_end) :: ms, start, chunks, query =>
    let cq := pushText inputs start chunk_start chunks query
    match fetch_video_for_config env config (subSlice inputs chunk_start chunk_end) with
    | .error e => .error e
    | .ok pv =>
      match video_tokens config pv.height pv.width (pv.sampled_frames : ℚ) with
      | none => .error (.panicked "unimplemented video tokens".toList)
      | some vt =>
        videoPass env config inputs ms chunk_end
          (cq.1 ++ [Chunk.video
            { data := pv.frames.flatten
              mimetype := pv.mimetype
              width := pv.width
              height := pv.height
              num_frames := pv.frames.length }])
          (cq.2 ++ vt)

/-- The `for chunk in RE.find_iter(&inputs)` loop (image pass). -/
def imagePass (env : Env) (config : Config) (preprocessor_config : Option HubPreprocessorConfig)
    (inputs : List Char) :
    List (Nat × Nat) → Nat → List Chunk → List Char →
    Except VErr (List Chunk × List Char × Nat)
  | [], start, chunks, query => .ok (chunks, query, start)
  | (chunk_start, chunk_end) :: ms, start, chunks, query =>
    let cq := pushText inputs start chunk_start chunks query
    match (env.fetch_image (subSlice inputs chunk_start chunk_end)).mapError ImageError.toVErr with
    | .error e => .error e
    | .ok (data, mimetype, height, width) =>
      match image_tokens config preprocessor_config height width with
      | none => .error (.panicked "unimplemented image tokens".toList)
      | some it =>
        imagePass env config preprocessor_config inputs ms chunk_end
          (cq.1 ++ [Chunk.image { data := data, mimetype := mimetype }])
          (cq.2 ++ it)

/-- The `(tokenizer_query, input_chunks)` computation of `prepare_input`
(the `match config` block): video pass, then image pass, then trailing
text, then the Idefics2 fix-up. -/
def prepare_query_chunks (env : Env) (config : Option Config)
    (preprocessor_config : Option HubPreprocessorConfig) (inputs : List Char) :
    Except VErr (List Char × List Chunk) :=
  match config with
  | some config =>
    if config.isVision then
      match videoPass env config inputs (findIter videoMatchLen inputs) 0 [] [] with
      | .error e => .error e
      | .ok (chunks, query, start) =>
        match imagePass env config preprocessor_config inputs
            (findIter imageMatchLen inputs) start chunks query with
        | .error e => .error e
        | .ok (chunks, query, start) =>
          let chunks :=
            if start ≠ inputs.length then chunks ++ [Chunk.text (inputs.drop start)]
            else chunks
          let query :=
            if start ≠ inputs.length then query ++ inputs.drop start else query
          .ok (image_tokens_fixup config query, chunks)
    else .ok (inputs, [Chunk.text inputs])
  | none => .ok (inputs, [Chunk.text inputs])

/-- `prepare_input`: build the tokenizer query and chunks, then encode
the (full, untruncated) query — the `_truncate` parameter is ignored by
the source, which is why it is unused here too. -/
def prepare_input (env : Env) (inputs : List Char) (_truncate : Option Nat)
    (add_special_tokens : Bool) : Except VErr (Encoding × List Chunk) :=
  match prepare_query_chunks env env.config env.preprocessor_config inputs with
  | .error e => .error e
  | .ok (tokenizer_query, input_chunks) =>
    match env.encode tokenizer_query add_special_tokens with
    | .error err => .error (.tokenizer err)
    | .ok encoding => .ok (encoding, input_chunks)

/-! ## The validation engine (`Validation::validate`, `Validation::validate_input`) -/

/-- The request parameter bag (`GenerateParameters`).  Fields the
destructuring at the top of `validate` ignores are omitted. -/
structure GenerateParameters where
  best_of : Option Nat
  temperature : Option ℚ
  repetition_penalty : Option ℚ
  frequency_penalty : Option ℚ
  top_k : Option Int
  top_p : Option ℚ
  typical_p : Option ℚ
  do_sample : Bool
  max_new_tokens : Option Nat
  stop : List (List Char)
  truncate : Option Nat
  seed : Option Nat
  watermark : Bool
  decoder_input_details : Bool
  top_n_tokens : Option Nat
  grammar : Option GrammarType
  adapter_id : Option (List Char)

/-- `GenerateRequest`. -/
structure GenerateRequest where
  inputs : List Char
  add_special_tokens : Bool
  parameters : GenerateParameters

/-- The configured limits of the `Validation` struct (the channel to the
worker pool is replaced by the `Env` oracle bundle). -/
structure Validation where
  max_best_of : Nat
  max_stop_sequences : Nat
  max_top_n_tokens : Nat
  max_input_length : Nat
  max_total_tokens : Nat
  disable_grammar_support : Bool

/-- `ValidParameters`. -/
structure ValidParameters where
  temperature : ℚ
  top_k : Nat
  top_p : ℚ
  typical_p : ℚ
  do_sample : Bool
  seed : Nat
  repetition_penalty : ℚ
  frequency_penalty : ℚ
  watermark : Bool
  grammar : Option ValidGrammar
deriving DecidableEq, Repr

/-- `ValidStoppingParameters` (`ignore_eos_token` is always constructed
`false`). -/
structure ValidStoppingParameters where
  max_new_tokens : Nat
  stop_sequences : List (List Char)
  ignore_eos_token : Bool
deriving DecidableEq, Repr

/-- `ValidGenerateRequest` (the `Arc` around `input_ids` is dropped). -/
structure ValidGenerateRequest where
  inputs : List Chunk
  input_ids : Option (List Nat)
  input_length : Nat
  truncate : Nat
  add_special_tokens : Bool
  decoder_input_details : Bool
  parameters : ValidParameters
  stopping_parameters : ValidStoppingParameters
  top_n_tokens : Nat
  adapter_id : Option (List Char)
deriving DecidableEq, Repr

/-- The `top_p` closure of `validate`:
`top_p.map(|v| if v <= 0.0 || v >= 1.0 { Err(TopP) } else { Ok(v) }).unwrap_or(Ok(1.0))?`. -/
def check_top_p (o : Option ℚ) : Except VErr ℚ :=
  match o with
  | some value => if value ≤ 0 ∨ 1 ≤ value then .error .topP else .ok value
  | none => .ok 1

/-- The `typical_p` closure (same shape as `check_top_p`). -/
def check_typical_p (o : Option ℚ) : Except VErr ℚ :=
  match o with
  | some value => if value ≤ 0 ∨ 1 ≤ value then .error .typicalP else .ok value
  | none => .ok 1

/-- The `top_k` closure: reject `value <= 0`, else cast `i32 → u32`. -/
def check_top_k (o : Option Int) : Except VErr Nat :=
  match o with
  | some value => if value ≤ 0 then .error .topK else .ok value.toNat
  | none => .ok 0

/-- Seed resolution: random when absent; `BestOfSeed` when present with
`best_of > 1`. -/
def check_seed (best_of : Nat) (rngSeed : Nat) (o : Option Nat) : Except VErr Nat :=
  match o with
  | none => .ok rngSeed
  | some seed => if best_of > 1 then .error .bestOfSeed else .ok seed

/-- The `top_n_tokens` closure. -/
def check_top_n_tokens (max_top_n_tokens : Nat) (o : Option Nat) : Except VErr Nat :=
  match o with
  | some value =>
    if value > max_top_n_tokens then .error (.topNTokens max_top_n_tokens value)
    else .ok value
  | none => .ok 0

/-- The `truncate` closure: `value == 0 || value > max_input_length` is
rejected. -/
def check_truncate (max_input_length : Nat) (o : Option Nat) : Except VErr (Option Nat) :=
  match o with
  | some value =>
    if value = 0 ∨ value > max_input_length then .error (.truncateErr max_input_length value)
    else .ok (some value)
  | none => .ok none

/-- The grammar block of `validate` (lines 327–371): a string grammar is
re-parsed by serde_json; the result is compiled against JSON-Schema
draft 2020-12; the `properties` key is required; then outlines-core
turns the schema into a regex.  A regex grammar is accepted verbatim. -/
def validate_grammar (env : Env) (disable_grammar_support : Bool)
    (grammar : Option GrammarType) : Except VErr (Option ValidGrammar) :=
  match grammar with
  | none => .ok none
  | some grammar =>
    if disable_grammar_support then .error .grammar
    else
      match grammar with
      | .json json =>
        match (match json with
          | .str s => (env.parse_json s).mapError (fun e => VErr.invalidGrammar e)
          | .obj fields => .ok (Json.obj fields)
          | _ => .error .grammar) with
        | .error e => .error e
        | .ok json =>
          match env.compile_schema json with
          | .error e => .error (.invalidGrammar e)
          | .ok () =>
            match json.get "properties".toList with
            | none => .error (.invalidGrammar "Grammar must have a properties field".toList)
            | some _ =>
              match env.schema_to_regex json with
              | .error e => .error (.regexFromSchema e)
              | .ok grammar_regex => .ok (some (.regex grammar_regex))
      | .regex regex => .ok (some (.regex regex))

/-- The input length computed by `validate_input` (the `if let
Some(truncate)` at the top of the function): the minimum of the encoding
length and the truncate value when the latter is supplied. -/
def resolved_input_length (enc : Encoding) (truncate : Option Nat) : Nat :=
  match truncate with
  | some truncate => min enc.len truncate
  | none => enc.len

/-- The `max_new_tokens` resolution of `validate_input`: the explicit
value when supplied, otherwise `max_total_tokens.saturating_sub(input_length)`
(`Nat` subtraction). -/
def resolved_max_new_tokens (max_total_tokens input_length : Nat) (o : Option Nat) : Nat :=
  match o with
  | some max_new_tokens => max_new_tokens
  | none => max_total_tokens - input_length

/-- `Validation::validate_input`: tokenize (through the worker pool,
which runs `prepare_input`), compute the input length, resolve
`max_new_tokens` (`saturating_sub` is `Nat` subtraction), enforce the
two budgets, and keep the last `input_length` token ids. -/
def validate_input (v : Validation) (env : Env) (inputs : List Char)
    (add_special_tokens : Bool) (truncate : Option Nat) (max_new_tokens : Option Nat) :
    Except VErr (List Chunk × Option (List Nat) × Nat × Nat) :=
  match prepare_input env inputs truncate add_special_tokens with
  | .error e => .error e
  | .ok (encoding, inputs) =>
    let input_length := resolved_input_length encoding truncate
    let max_new_tokens := resolved_max_new_tokens v.max_total_tokens input_length max_new_tokens
    let total_tokens := input_length + max_new_tokens
    if total_tokens > v.max_total_tokens then
      .error (.maxTotalTokens v.max_total_tokens input_length max_new_tokens)
    else if input_length > v.max_input_length then
      .error (.inputLength v.max_input_length input_length)
    else
      let ids := encoding.ids
      let input_ids := ids.drop (ids.length - input_length)
      .ok (inputs, some input_ids, input_length, max_new_tokens)

/-- The `best_of`/sampling guard of `validate` (step 1): `best_of > 1`
without sampling is `BestOfSampling`. -/
def check_best_of_sampling (best_of : Nat) (sampling : Bool) : Except VErr Unit :=
  if best_of > 1 ∧ sampling = false then .error .bestOfSampling else .ok ()

/-- `if temperature <= 0.0 { return Err(Temperature) }`. -/
def check_temperature (temperature : ℚ) : Except VErr Unit :=
  if temperature ≤ 0 then .error .temperature else .ok ()

/-- `if repetition_penalty <= 0.0 { return Err(RepetitionPenalty) }`. -/
def check_repetition_penalty (repetition_penalty : ℚ) : Except VErr Unit :=
  if repetition_penalty ≤ 0 then .error .repetitionPenalty else .ok ()

/-- `if !(-2.0..=2.0).contains(&frequency_penalty) { return Err(..) }`. -/
def check_frequency_penalty (frequency_penalty : ℚ) : Except VErr Unit :=
  if ¬(-2 ≤ frequency_penalty ∧ frequency_penalty ≤ 2) then .error .frequencyPenalty
  else .ok ()

/-- `if max_new_tokens == Some(0) { return Err(NegativeMaxNewTokens) }`. -/
def check_max_new_tokens_not_zero (o : Option Nat) : Except VErr Unit :=
  if o = some 0 then .error .negativeMaxNewTokens else .ok ()

/-- `if stop_sequences.len() > max_stop_sequences { return Err(..) }`. -/
def check_stop_sequences (max_stop_sequences n : Nat) : Except VErr Unit :=
  if n > max_stop_sequences then .error (.stopSequence max_stop_sequences n) else .ok ()

/-- `if request.inputs.is_empty() { return Err(EmptyInput) }`. -/
def check_empty_input (inputs : List Char) : Except VErr Unit :=
  if inputs = [] then .error .emptyInput else .ok ()

/-- `Validation::validate`: the full parameter-validation pipeline, in
the source's check order; each `?`-propagating step is an explicit
`Except` bind. -/
def validate (v : Validation) (env : Env) (request : GenerateRequest) :
    Except VErr ValidGenerateRequest :=
  let p := request.parameters
  let best_of := p.best_of.getD 1
  let sampling := p.do_sample || p.temperature.isSome || p.top_k.isSome
    || p.top_p.isSome || p.typical_p.isSome
  check_best_of_sampling best_of sampling >>= fun _ =>
  let temperature := p.temperature.getD 1
  check_temperature temperature >>= fun _ =>
  let repetition_penalty := p.repetition_penalty.getD 1
  check_repetition_penalty repetition_penalty >>= fun _ =>
  let frequency_penalty := p.frequency_penalty.getD 0
  check_frequency_penalty frequency_penalty >>= fun _ =>
  check_top_p p.top_p >>= fun top_p =>
  check_typical_p p.typical_p >>= fun typical_p =>
  check_top_k p.top_k >>= fun top_k =>
  check_max_new_tokens_not_zero p.max_new_tokens >>= fun _ =>
  check_stop_sequences v.max_stop_sequences p.stop.length >>= fun _ =>
  check_seed best_of env.rngSeed p.seed >>= fun seed =>
  check_top_n_tokens v.max_top_n_tokens p.top_n_tokens >>= fun top_n_tokens =>
  check_empty_input request.inputs >>= fun _ =>
  check_truncate v.max_input_length p.truncate >>= fun truncate =>
  validate_input v env request.inputs request.add_special_tokens truncate p.max_new_tokens
    >>= fun (inputs, input_ids, input_length, max_new_tokens) =>
  validate_grammar env v.disable_grammar_support p.grammar >>= fun grammar =>
    .ok
      { inputs := inputs
        input_ids := input_ids
        add_special_tokens := request.add_special_tokens
        decoder_input_details := p.decoder_input_details
        input_length := input_length
        truncate := truncate.getD v.max_input_length
        parameters :=
          { temperature := temperature
            repetition_penalty := repetition_penalty
            frequency_penalty := frequency_penalty
            top_k := top_k
            top_p := top_p
            typical_p := typical_p
            do_sample := p.do_sample
            seed := seed
            watermark := p.watermark
            grammar := grammar }
        stopping_parameters :=
          { max_new_tokens := max_new_tokens
            stop_sequences := p.stop
            ignore_eos_token := false }
        top_n_tokens := top_n_tokens
        adapter_id := p.adapter_id }

/-! ## The round-robin distributor (`round_robin_task`)

`round_robin_task` loops forever; inside, a `for sender in &senders`
loop pulls one inbound request per sender and forwards it.  We model a
finite run: the inbound queue delivers the list `reqs` and then closes
(`recv` returns `None`), at which point the task returns.  The output
is the forwarding log: `(worker index, request)` pairs in forwarding
order.  With zero senders the source would spin forever without ever
forwarding; the model returns the empty log in that (unused) case. -/

def round_robin_go {α : Type} (senders : List Nat) :
    List Nat → List α → List (Nat × α)
  | _, [] => []
  | [], r :: rs =>
    match senders with
    | [] => []
    | j :: js => (j, r) :: round_robin_go senders js rs
  | j :: js, r :: rs => (j, r) :: round_robin_go senders js rs

/-- A finite run of `round_robin_task` with `workers` senders over the
inbound requests `reqs`. -/
def round_robin_task {α : Type} (workers : Nat) (reqs : List α) : List (Nat × α) :=
  round_robin_go (List.range workers) (List.range workers) reqs

deriving instance DecidableEq for Except

/-! ## Theorems -/

/-- A standing example environment with a text-only model (no config)
whose tokenizer maps every prompt to a single token id 42, used to
instantiate theorems with hypotheses at concrete inputs. -/
def envHello : Env :=
  { config := none
    preprocessor_config := none
    encode := fun _ _ => .ok ⟨[42]⟩
    fetch_image := fun _ => .error (.invalidImageContent [])
    fetch_video := fun _ _ _ => .error (.ffmpegError [])
    parse_json := fun _ => .error []
    compile_schema := fun _ => .error []
    schema_to_regex := fun _ => .error []
    rngSeed := 0 }

/-- The `Validation` limits used by the source's own test fixtures:
`max_best_of = 2`, `max_stop_sequences = 3`, `max_top_n_tokens = 4`,
`max_input_length = 5`, `max_total_tokens = 6`, grammar disabled. -/
def vFixture : Validation := ⟨2, 3, 4, 5, 6, true⟩

/-- A concrete request accepted by `validate` under `vFixture` /
`envHello`: defaults everywhere, `max_new_tokens = 5`, explicit seed 0. -/
def reqOk : GenerateRequest :=
  { inputs := "Hello".toList
    add_special_tokens := true
    parameters :=
      { best_of := none, temperature := none, repetition_penalty := none,
        frequency_penalty := none, top_k := none, top_p := none, typical_p := none,
        do_sample := false, max_new_tokens := some 5, stop := [], truncate := none,
        seed := some 0, watermark := false, decoder_input_details := false,
        top_n_tokens := none, grammar := none, adapter_id := none } }

/-- The validated request `validate vFixture envHello reqOk` produces. -/
def reqOkResult : ValidGenerateRequest :=
  { inputs := [Chunk.text "Hello".toList]
    input_ids := some [42]
    input_length := 1
    truncate := 5
    add_special_tokens := true
    decoder_input_details := false
    parameters :=
      { temperature := 1, top_k := 0, top_p := 1, typical_p := 1,
        do_sample := false, seed := 0, repetition_penalty := 1,
        frequency_penalty := 0, watermark := false, grammar := none }
    stopping_parameters :=
      { max_new_tokens := 5, stop_sequences := [], ignore_eos_token := false }
    top_n_tokens := 0
    adapter_id := none }

/-- A request whose `top_p` is the out-of-range value 2 (other
parameters valid). -/
def reqTopPbad : GenerateRequest :=
  { inputs := "Hello".toList
    add_special_tokens := true
    parameters :=
      { best_of := none, temperature := none, repetition_penalty := none,
        frequency_penalty := none, top_k := none, top_p := some 2, typical_p := none,
        do_sample := false, max_new_tokens := some 5, stop := [], truncate := none,
        seed := none, watermark := false, decoder_input_details := false,
        top_n_tokens := none, grammar := none, adapter_id := none } }

/-- A request with `best_of = 2`, sampling enabled via `do_sample`, and
an explicit seed. -/
def reqBestOfSeed : GenerateRequest :=
  { inputs := "Hello".toList
    add_special_tokens := true
    parameters :=
      { best_of := some 2, temperature := none, repetition_penalty := none,
        frequency_penalty := none, top_k := none, top_p := none, typical_p := none,
        do_sample := true, max_new_tokens := none, stop := [], truncate := none,
        seed := some 0, watermark := false, decoder_input_details := false,
        top_n_tokens := none, grammar := none, adapter_id := none } }

/-- An environment whose JSON parser returns the empty object for any
input and whose schema compiler accepts everything. -/
def envGrammar : Env :=
  { envHello with
    parse_json := fun _ => .ok (Json.obj [])
    compile_schema := fun _ => .ok ()
    schema_to_regex := fun _ => .ok [] }

/-- A Qwen2-VL environment whose media fetchers always fail (they are
never reached in the scans below). -/
def envC2 : Env :=
  { envHello with config := some (.qwen2Vl (fun _ _ => 0)) }

/-- A fixed processed video used to instantiate the http(s) video-scan
theorem. -/
def pvFixture : ProcessedVideo :=
  { mimetype := "video/mp4".toList
    height := 420
    width := 360
    frames := [[0]]
    fps := 1
    total_frames := 1
    sampled_frames := 1 }

/-- `envC2` with a fetcher that returns `pvFixture` for every request. -/
def envC2v : Env :=
  { envC2 with fetch_video := fun _ _ _ => .ok pvFixture }

/-- An Idefics2 environment whose image fetcher returns a fixed 1x1
gif for every request; the feature count is the constant 1. -/
def envI2 : Env :=
  { envHello with
    config := some (.idefics2 (fun _ _ => 1))
    preprocessor_config := some (.idefics2Processor true)
    fetch_image := fun _ => .ok ([0], "image/gif".toList, 1, 1) }

@[simp]
theorem except_ok_bind {α β : Type} (a : α) (f : α → Except VErr β) :
    (Except.ok a >>= f) = f a := rfl

@[simp]
theorem except_error_bind {α β : Type} (e : VErr) (f : α → Except VErr β) :
    ((Except.error e : Except VErr α) >>= f) = .error e := rfl

/-- Success inversion for `Except` bind. -/
theorem except_bind_eq_ok {α β : Type} {a : Except VErr α} {f : α → Except VErr β} {r : β} :
    (a >>= f) = .ok r ↔ ∃ w, a = .ok w ∧ f w = .ok r := by
  cases a <;> simp

/-- Error inversion for `Except` bind. -/
theorem except_bind_eq_error {α β : Type} {a : Except VErr α} {f : α → Except VErr β}
    {e : VErr} :
    (a >>= f) = .error e ↔ a = .error e ∨ ∃ w, a = .ok w ∧ f w = .error e := by
  cases a <;> simp

/-- C7: with no model config, `prepare_input`'s query/chunk computation
is the identity: the tokenizer query is the input itself and the chunk
sequence is the single chunk `Text(input)` (the wildcard arm
`_ => (inputs.clone(), vec![Chunk::Text(inputs)])`). -/
theorem prepare_input_identity_no_config (env : Env)
    (preprocessor_config : Option HubPreprocessorConfig) (inputs : List Char) :
    prepare_query_chunks env none preprocessor_config inputs
      = .ok (inputs, [Chunk.text inputs]) := rfl

/-- Auxiliary for C9: two starting offsets congruent mod `W` produce
the same worker assignments. -/
theorem enumFrom_mod_congr {α : Type} (W : Nat) :
    ∀ (l : List α) (m n : Nat), m % W = n % W →
      (List.enumFrom m l).map (fun p => (p.1 % W, p.2))
        = (List.enumFrom n l).map (fun p => (p.1 % W, p.2)) := by
  intro l
  induction l with
  | nil => intro m n _; rfl
  | cons a as ih =>
    intro m n h
    simp only [List.enumFrom, List.map_cons, h]
    exact congrArg _ (ih (m + 1) (n + 1) (Nat.ModEq.add_right 1 h))

/-- Auxiliary for C9: a run of the distributor starting with the sender
cursor at position `k` assigns request `i` (counted from `k`) to worker
`(k + i) % W`. -/
theorem round_robin_go_spec {α : Type} (W : Nat) (hW : 0 < W) :
    ∀ (reqs : List α) (k : Nat), k ≤ W →
      round_robin_go (List.range W) ((List.range W).drop k) reqs
        = (List.enumFrom k reqs).map (fun p => (p.1 % W, p.2)) := by
  intro reqs
  induction reqs with
  | nil =>
    intro k _
    cases h : (List.range W).drop k <;> rfl
  | cons r rs ih =>
    intro k hk
    rcases Nat.lt_or_ge k W with hkW | hkW
    · have hdrop : (List.range W).drop k = k :: (List.range W).drop (k + 1) := by
        rw [List.drop_eq_getElem_cons (by simpa using hkW)]
        simp
      rw [hdrop]
      simp only [round_robin_go, List.enumFrom, List.map_cons]
      rw [ih (k + 1) (by omega)]
      simp [Nat.mod_eq_of_lt hkW]
    · have hkeq : k = W := le_antisymm hk hkW
      rw [hkeq, show (List.range W).drop W = [] from by simp]
      obtain ⟨u, rfl⟩ : ∃ u, W = u + 1 := ⟨W - 1, by omega⟩
      rw [List.range_succ_eq_map]
      have hd : List.map Nat.succ (List.range u) = (List.range (u + 1)).drop 1 := by
        rw [List.range_succ_eq_map]
        simp
      simp only [round_robin_go, List.enumFrom, List.map_cons]
      rw [← List.range_succ_eq_map, hd, ih 1 (by omega)]
      have hcongr : (1 : Nat) % (u + 1) = (u + 1 + 1) % (u + 1) :=
        (Nat.add_mod_left (u + 1) 1).symm
      rw [enumFrom_mod_congr (u + 1) rs 1 (u + 1 + 1) hcongr]
      simp [Nat.mod_self]

/-- Auxiliary for C9: filtering a mapped list on a predicate of the
image has the same length as filtering on the composed predicate. -/
theorem length_filter_map_eq {α β : Type} (f : α → β) (p : β → Bool) :
    ∀ l : List α, ((l.map f).filter p).length = (l.filter (fun a => p (f a))).length := by
  intro l
  induction l with
  | nil => rfl
  | cons a as ih =>
    by_cases h : p (f a) <;> simp [List.filter, h, ih]

/-- Auxiliary for C9: among `range n` exactly one element equals `j`
when `j < n`. -/
theorem length_filter_range_eq (j : Nat) :
    ∀ n : Nat, ((List.range n).filter (fun i => i = j)).length
      = if j < n then 1 else 0 := by
  intro n
  induction n with
  | zero => simp
  | succ n ih =>
    rw [List.range_succ, List.filter_append, List.length_append, ih]
    by_cases h : n = j
    · subst h
      simp
    · have h0 : List.filter (fun i => i = j) [n] = [] := by simp [h]
      rw [h0]
      simp only [List.length_nil]
      split_ifs with h1 h2 <;> omega

/-- Auxiliary for C9: among the first `c * W` naturals, exactly `c` are
congruent to `j` mod `W` (for `j < W`). -/
theorem length_filter_range_mod (W j : Nat) (hj : j < W) :
    ∀ c : Nat, ((List.range (c * W)).filter (fun i => i % W = j)).length = c := by
  intro c
  induction c with
  | zero => simp
  | succ c ih =>
    have : (c + 1) * W = c * W + W := by ring
    rw [this, List.range_add, List.filter_append, List.length_append, ih,
      length_filter_map_eq (fun x => c * W + x) (fun i => decide (i % W = j))]
    have hcongr : ((List.range W).filter (fun x => decide ((c * W + x) % W = j))).length
        = ((List.range W).filter (fun x => decide (x = j))).length := by
      rw [List.filter_congr]
      intro x hx
      have hxW : x < W := List.mem_range.mp hx
      have : (c * W + x) % W = x := by
        rw [Nat.add_comm, Nat.add_mul_mod_self_right, Nat.mod_eq_of_lt hxW]
      simp [this]
    rw [hcongr, length_filter_range_eq j W, if_pos hj]

/-- C9: the round-robin distributor forwards the `i`-th inbound request
to worker `i mod W`, and when the request count is a multiple of the
worker count `W ≥ 2`, every worker receives exactly `length / W`
requests. -/
theorem round_robin_fairness {α : Type} (W : Nat) (reqs : List α) (hW : 2 ≤ W)
    (hdvd : W ∣ reqs.length) :
    round_robin_task W reqs = reqs.enum.map (fun p => (p.1 % W, p.2))
    ∧ ∀ j < W, ((round_robin_task W reqs).filter (fun p => p.1 = j)).length
        = reqs.length / W := by
  have hW0 : 0 < W := by omega
  have hmain : round_robin_task W reqs = reqs.enum.map (fun p => (p.1 % W, p.2)) := by
    have h0 := round_robin_go_spec W hW0 reqs 0 (by omega)
    simpa [round_robin_task, List.enum] using h0
  refine ⟨hmain, ?_⟩
  intro j hj
  obtain ⟨c, hc⟩ := hdvd
  rw [hmain]
  have step1 : ((List.map (fun p => (p.1 % W, p.2)) reqs.enum).filter
      (fun p => decide (p.1 = j))).length
      = (reqs.enum.filter (fun q => decide (q.1 % W = j))).length := by
    rw [length_filter_map_eq]
  have step2 : (reqs.enum.filter (fun q => decide (q.1 % W = j))).length
      = ((reqs.enum.map Prod.fst).filter (fun i => decide (i % W = j))).length :=
    (length_filter_map_eq Prod.fst (fun i => decide (i % W = j)) reqs.enum).symm
  rw [step1, step2, List.enum_map_fst, hc, Nat.mul_comm W c,
    length_filter_range_mod W j hj c]
  exact (Nat.mul_div_cancel c hW0).symm

/-- Witness for C9, at `W = 2` and four requests. -/
theorem round_robin_fairness_witness :
    round_robin_task 2 ([10, 20, 30, 40] : List Nat)
        = ([10, 20, 30, 40] : List Nat).enum.map (fun p => (p.1 % 2, p.2))
    ∧ ∀ j < 2, ((round_robin_task 2 ([10, 20, 30, 40] : List Nat)).filter
        (fun p => p.1 = j)).length = ([10, 20, 30, 40] : List Nat).length / 2 :=
  round_robin_fairness 2 [10, 20, 30, 40] (by decide) (by decide)

/-- C1: `validate_input` rejects with
`MaxTotalTokens(max_total_tokens, input_length, max_new_tokens)` exactly
when `input_length + max_new_tokens > max_total_tokens` (with
`input_length` and `max_new_tokens` resolved as the source resolves
them); the rejection happens inside validation, before the request is
handed to any downstream consumer. -/
theorem validate_input_rejects_max_total (v : Validation) (env : Env) (inputs : List Char)
    (ast : Bool) (truncate mnt : Option Nat) (enc : Encoding) (chunks : List Chunk)
    (hprep : prepare_input env inputs truncate ast = .ok (enc, chunks)) :
    validate_input v env inputs ast truncate mnt
        = .error (.maxTotalTokens v.max_total_tokens (resolved_input_length enc truncate)
            (resolved_max_new_tokens v.max_total_tokens (resolved_input_length enc truncate) mnt))
      ↔ v.max_total_tokens < resolved_input_length enc truncate
          + resolved_max_new_tokens v.max_total_tokens (resolved_input_length enc truncate) mnt := by
  unfold validate_input
  rw [hprep]
  simp only []
  by_cases hc : v.max_total_tokens < resolved_input_length enc truncate
      + resolved_max_new_tokens v.max_total_tokens (resolved_input_length enc truncate) mnt
  · rw [if_pos hc]
    simp [hc]
  · rw [if_neg hc]
    constructor
    · intro h
      split at h <;> simp_all
    · intro h
      exact absurd h hc

/-- Witness for C1: the source's own fixture — `max_total_tokens = 6`,
`max_input_length = 5`, `"Hello"` tokenizing to one token,
`max_new_tokens = 10` — is rejected with `MaxTotalTokens(6, 1, 10)`. -/
theorem validate_input_rejects_max_total_witness :
    validate_input vFixture envHello "Hello".toList true none (some 10)
      = .error (.maxTotalTokens 6 1 10) :=
  (validate_input_rejects_max_total vFixture envHello "Hello".toList true none (some 10)
    ⟨[42]⟩ [Chunk.text "Hello".toList] rfl).mpr (by decide)

/-- C3: when `max_new_tokens` is absent, `validate_input` resolves it to
`max_total_tokens − input_length`, where `input_length` is
`min(encoding length, truncate)` when a truncate is supplied and the
encoding length otherwise (the subtraction is `saturating_sub`, i.e.
truncated `Nat` subtraction). -/
theorem validate_input_resolves_max_new_tokens (v : Validation) (env : Env)
    (inputs : List Char) (ast : Bool) (truncate : Option Nat)
    (enc : Encoding) (chunks outChunks : List Chunk) (ids : Option (List Nat)) (il m : Nat)
    (hprep : prepare_input env inputs truncate ast = .ok (enc, chunks))
    (hok : validate_input v env inputs ast truncate none = .ok (outChunks, ids, il, m)) :
    il = resolved_input_length enc truncate ∧ m = v.max_total_tokens - il := by
  unfold validate_input at hok
  rw [hprep] at hok
  simp only [] at hok
  split at hok
  · exact absurd hok (by simp)
  · split at hok
    · exact absurd hok (by simp)
    · simp only [Except.ok.injEq, Prod.mk.injEq] at hok
      obtain ⟨-, -, h3, h4⟩ := hok
      simp only [resolved_max_new_tokens] at h4
      rw [h3] at h4
      exact ⟨h3.symm, h4.symm⟩

/-- Witness for C3: with `max_total_tokens = 6`, no truncate and a
one-token prompt, the resolved `max_new_tokens` is `6 − 1 = 5`. -/
theorem validate_input_resolves_max_new_tokens_witness :
    (1 : Nat) = (Encoding.mk [42]).len ∧ (5 : Nat) = vFixture.max_total_tokens - 1 :=
  validate_input_resolves_max_new_tokens vFixture envHello "Hello".toList true none
    ⟨[42]⟩ [Chunk.text "Hello".toList] [Chunk.text "Hello".toList] (some [42]) 1 5
    rfl rfl

/-- `prepare_input` tokenizes the full, untruncated query: the truncate
argument is ignored by the source (`_truncate`). -/
theorem prepare_input_truncate_irrelevant (env : Env) (inputs : List Char)
    (t1 t2 : Option Nat) (ast : Bool) :
    prepare_input env inputs t1 ast = prepare_input env inputs t2 ast := rfl

/-- C10: for every request `validate` accepts, the stored `input_ids`
are exactly the last `input_length` ids of the tokenizer encoding — a
suffix (tail) of the encoded prompt, of length `input_length` — and the
encoding itself is computed from the full untruncated query (the
truncate value never changes what is tokenized). -/
theorem validate_input_ids_are_suffix (v : Validation) (env : Env) (req : GenerateRequest)
    (r : ValidGenerateRequest) (hok : validate v env req = .ok r) :
    ∃ (tr : Option Nat) (enc : Encoding) (chunks : List Chunk),
      check_truncate v.max_input_length req.parameters.truncate = .ok tr
      ∧ prepare_input env req.inputs tr req.add_special_tokens = .ok (enc, chunks)
      ∧ (∀ t2 : Option Nat, prepare_input env req.inputs t2 req.add_special_tokens
          = prepare_input env req.inputs tr req.add_special_tokens)
      ∧ r.input_ids = some (enc.ids.drop (enc.ids.length - r.input_length))
      ∧ enc.ids.drop (enc.ids.length - r.input_length) <:+ enc.ids
      ∧ (enc.ids.drop (enc.ids.length - r.input_length)).length = r.input_length := by
  unfold validate at hok
  obtain ⟨u1, hc1, hok⟩ := except_bind_eq_ok.mp hok
  obtain ⟨u2, hc2, hok⟩ := except_bind_eq_ok.mp hok
  obtain ⟨u3, hc3, hok⟩ := except_bind_eq_ok.mp hok
  obtain ⟨u4, hc4, hok⟩ := except_bind_eq_ok.mp hok
  obtain ⟨top_p1, htp, hok⟩ := except_bind_eq_ok.mp hok
  obtain ⟨typ1, htpy, hok⟩ := except_bind_eq_ok.mp hok
  obtain ⟨tk1, htk, hok⟩ := except_bind_eq_ok.mp hok
  obtain ⟨u5, hc5, hok⟩ := except_bind_eq_ok.mp hok
  obtain ⟨u6, hc6, hok⟩ := except_bind_eq_ok.mp hok
  obtain ⟨seed1, hsd, hok⟩ := except_bind_eq_ok.mp hok
  obtain ⟨tnt1, htnt, hok⟩ := except_bind_eq_ok.mp hok
  obtain ⟨u7, hc7, hok⟩ := except_bind_eq_ok.mp hok
  obtain ⟨tr1, htr, hok⟩ := except_bind_eq_ok.mp hok
  obtain ⟨tup, hvi, hok⟩ := except_bind_eq_ok.mp hok
  obtain ⟨inputs1, input_ids1, il1, m1⟩ := tup
  simp only [] at hok
  obtain ⟨gr1, hgr, hok⟩ := except_bind_eq_ok.mp hok
  unfold validate_input at hvi
  split at hvi
  · exact absurd hvi (by simp)
  rename_i enc chunks hprep
  simp only [] at hvi
  split at hvi
  · exact absurd hvi (by simp)
  split at hvi
  · exact absurd hvi (by simp)
  simp only [Except.ok.injEq, Prod.mk.injEq] at hvi
  obtain ⟨h1, h2, h3, h4⟩ := hvi
  simp only [Except.ok.injEq] at hok
  subst hok
  have hle : il1 ≤ enc.ids.length := by
    rw [← h3]
    cases tr1 <;> simp [resolved_input_length, Encoding.len]
  refine ⟨tr1, enc, chunks, htr, hprep, fun t2 => rfl, ?_, List.drop_suffix _ _, ?_⟩
  · simp only []
    rw [← h3]
    exact h2.symm
  · simp only [List.length_drop]
    omega

/-- Inversion of `Except.mapError` producing an error. -/
theorem except_mapError_eq_error {α ε ε2 : Type} {x : Except ε α} {f : ε → ε2} {e : ε2} :
    x.mapError f = .error e → ∃ e0, x = .error e0 ∧ f e0 = e := by
  cases x <;> simp [Except.mapError]

theorem VideoError_toVErr_ne_top_p (ve : VideoError) : ve.toVErr ≠ .topP := by
  cases ve <;> simp [VideoError.toVErr]

theorem ImageError_toVErr_ne_top_p (ie : ImageError) : ie.toVErr ≠ .topP := by
  cases ie <;> simp [ImageError.toVErr]

theorem check_best_of_sampling_ne_top_p (b : Nat) (s : Bool) :
    check_best_of_sampling b s ≠ .error .topP := by
  unfold check_best_of_sampling
  split <;> simp

theorem check_temperature_ne_top_p (t : ℚ) : check_temperature t ≠ .error .topP := by
  unfold check_temperature
  split <;> simp

theorem check_repetition_penalty_ne_top_p (t : ℚ) :
    check_repetition_penalty t ≠ .error .topP := by
  unfold check_repetition_penalty
  split <;> simp

theorem check_frequency_penalty_ne_top_p (t : ℚ) :
    check_frequency_penalty t ≠ .error .topP := by
  unfold check_frequency_penalty
  split <;> simp

theorem check_typical_p_ne_top_p (o : Option ℚ) : check_typical_p o ≠ .error .topP := by
  unfold check_typical_p
  split <;> (try split) <;> simp

theorem check_top_k_ne_top_p (o : Option Int) : check_top_k o ≠ .error .topP := by
  unfold check_top_k
  split <;> (try split) <;> simp

theorem check_max_new_tokens_not_zero_ne_top_p (o : Option Nat) :
    check_max_new_tokens_not_zero o ≠ .error .topP := by
  unfold check_max_new_tokens_not_zero
  split <;> simp

theorem check_stop_sequences_ne_top_p (m n : Nat) :
    check_stop_sequences m n ≠ .error .topP := by
  unfold check_stop_sequences
  split <;> simp

theorem check_seed_ne_top_p (b r : Nat) (o : Option Nat) :
    check_seed b r o ≠ .error .topP := by
  unfold check_seed
  split <;> (try split) <;> simp

theorem check_top_n_tokens_ne_top_p (m : Nat) (o : Option Nat) :
    check_top_n_tokens m o ≠ .error .topP := by
  unfold check_top_n_tokens
  split <;> (try split) <;> simp

theorem check_empty_input_ne_top_p (inputs : List Char) :
    check_empty_input inputs ≠ .error .topP := by
  unfold check_empty_input
  split <;> simp

theorem check_truncate_ne_top_p (m : Nat) (o : Option Nat) :
    check_truncate m o ≠ .error .topP := by
  unfold check_truncate
  split <;> (try split) <;> simp

/-- The config-dispatched video fetch fails only with media errors or a
panic, never with a parameter-range error. -/
theorem fetch_video_for_config_ne_top_p (env : Env) (config : Config) (sub : List Char) :
    fetch_video_for_config env config sub ≠ .error .topP := by
  intro h
  cases config <;> simp only [fetch_video_for_config] at h
  case idefics | mllama | idefics2 | paligemma | llavaNext | qwen2Vl =>
    obtain ⟨ve, -, hveq⟩ := except_mapError_eq_error h
    exact VideoError_toVErr_ne_top_p ve hveq
  case other =>
    simp at h

/-- The video pass can only fail with media errors or a panic. -/
theorem videoPass_ne_top_p (env : Env) (config : Config) (inputs : List Char) :
    ∀ (ms : List (Nat × Nat)) (start : Nat) (chunks : List Chunk) (query : List Char),
      videoPass env config inputs ms start chunks query ≠ .error .topP := by
  intro ms
  induction ms with
  | nil =>
    intro start chunks query h
    simp [videoPass] at h
  | cons m ms ih =>
    intro start chunks query h
    obtain ⟨cs, ce⟩ := m
    unfold videoPass at h
    split at h
    · rename_i e0 heq
      simp only [Except.error.injEq] at h
      subst h
      exact fetch_video_for_config_ne_top_p env config _ heq
    · split at h
      · simp at h
      · exact ih _ _ _ h

/-- The image pass can only fail with media errors or a panic. -/
theorem imagePass_ne_top_p (env : Env) (config : Config)
    (pre : Option HubPreprocessorConfig) (inputs : List Char) :
    ∀ (ms : List (Nat × Nat)) (start : Nat) (chunks : List Chunk) (query : List Char),
      imagePass env config pre inputs ms start chunks query ≠ .error .topP := by
  intro ms
  induction ms with
  | nil =>
    intro start chunks query h
    simp [imagePass] at h
  | cons m ms ih =>
    intro start chunks query h
    obtain ⟨cs, ce⟩ := m
    unfold imagePass at h
    split at h
    · rename_i e0 heq
      simp only [Except.error.injEq] at h
      subst h
      obtain ⟨ie, -, hieq⟩ := except_mapError_eq_error heq
      exact ImageError_toVErr_ne_top_p ie hieq
    · split at h
      · simp at h
      · exact ih _ _ _ h

/-- The chunk builder can only fail with media errors or a panic. -/
theorem prepare_query_chunks_ne_top_p (env : Env) (config : Option Config)
    (pre : Option HubPreprocessorConfig) (inputs : List Char) :
    prepare_query_chunks env config pre inputs ≠ .error .topP := by
  intro h
  unfold prepare_query_chunks at h
  rcases config with - | config
  · simp at h
  · simp only [] at h
    split at h
    · split at h
      · rename_i e0 hv
        simp only [Except.error.injEq] at h
        subst h
        exact videoPass_ne_top_p env config inputs _ _ _ _ hv
      · split at h
        · rename_i e0 hi
          simp only [Except.error.injEq] at h
          subst h
          exact imagePass_ne_top_p env config pre inputs _ _ _ _ hi
        · simp at h
    · simp at h

/-- `prepare_input` can only fail with media, panic or tokenizer errors. -/
theorem prepare_input_ne_top_p (env : Env) (inputs : List Char) (tr : Option Nat)
    (ast : Bool) : prepare_input env inputs tr ast ≠ .error .topP := by
  intro h
  unfold prepare_input at h
  split at h
  · rename_i e0 hq
    simp only [Except.error.injEq] at h
    subst h
    exact prepare_query_chunks_ne_top_p env env.config env.preprocessor_config inputs hq
  · split at h
    · simp at h
    · simp at h

/-- `validate_input` never produces the `TopP` error. -/
theorem validate_input_ne_top_p (v : Validation) (env : Env) (inputs : List Char)
    (ast : Bool) (tr mnt : Option Nat) :
    validate_input v env inputs ast tr mnt ≠ .error .topP := by
  intro h
  unfold validate_input at h
  split at h
  · rename_i e0 hp
    simp only [Except.error.injEq] at h
    subst h
    exact prepare_input_ne_top_p env inputs tr ast hp
  · simp only [] at h
    split at h
    · simp at h
    · split at h
      · simp at h
      · simp at h

/-- The grammar compiler never produces the `TopP` error. -/
theorem validate_grammar_ne_top_p (env : Env) (dis : Bool) (g : Option GrammarType) :
    validate_grammar env dis g ≠ .error .topP := by
  intro h
  unfold validate_grammar at h
  rcases g with - | g
  · simp at h
  · simp only [] at h
    split at h
    · simp at h
    · rcases g with j | rx
      · simp only [] at h
        split at h
        · rename_i e0 hj
          simp only [Except.error.injEq] at h
          subst h
          rcases j with - | b | q | sv | xs | fs <;> simp only [] at hj
          · simp at hj
          · simp at hj
          · simp at hj
          · obtain ⟨m0, -, hme⟩ := except_mapError_eq_error hj
            simp at hme
          · simp at hj
          · simp at hj
        · split at h
          · simp at h
          · split at h
            · simp at h
            · split at h
              · simp at h
              · simp at h
      · simp at h

/-- C4: when `top_p` is unset, `validate` resolves it to exactly `1` and
can never return the `TopP` error; when `top_p` is user-supplied, any
value `≤ 0` or `≥ 1` (including exactly 1) fails with `TopP`, provided
the checks that the source runs before the `top_p` check (best-of /
temperature / penalties) pass — `validate` short-circuits on the first
failing check, and supplying `top_p` itself enables sampling. -/
theorem validate_top_p_semantics (v : Validation) (env : Env) (req : GenerateRequest) :
    (req.parameters.top_p = none →
      validate v env req ≠ .error .topP
      ∧ ∀ r, validate v env req = .ok r → r.parameters.top_p = 1)
    ∧ (∀ x : ℚ, req.parameters.top_p = some x → x ≤ 0 ∨ 1 ≤ x →
        ¬ req.parameters.temperature.getD 1 ≤ 0 →
        ¬ req.parameters.repetition_penalty.getD 1 ≤ 0 →
        -2 ≤ req.parameters.frequency_penalty.getD 0 →
        req.parameters.frequency_penalty.getD 0 ≤ 2 →
        validate v env req = .error .topP) := by
  constructor
  · intro hnone
    constructor
    · intro hcontra
      unfold validate at hcontra
      rcases except_bind_eq_error.mp hcontra with hbad | ⟨u1, -, hcontra⟩
      · exact check_best_of_sampling_ne_top_p _ _ hbad
      rcases except_bind_eq_error.mp hcontra with hbad | ⟨u2, -, hcontra⟩
      · exact check_temperature_ne_top_p _ hbad
      rcases except_bind_eq_error.mp hcontra with hbad | ⟨u3, -, hcontra⟩
      · exact check_repetition_penalty_ne_top_p _ hbad
      rcases except_bind_eq_error.mp hcontra with hbad | ⟨u4, -, hcontra⟩
      · exact check_frequency_penalty_ne_top_p _ hbad
      rcases except_bind_eq_error.mp hcontra with hbad | ⟨tp, -, hcontra⟩
      · rw [hnone] at hbad
        simp [check_top_p] at hbad
      rcases except_bind_eq_error.mp hcontra with hbad | ⟨typ, -, hcontra⟩
      · exact check_typical_p_ne_top_p _ hbad
      rcases except_bind_eq_error.mp hcontra with hbad | ⟨tk, -, hcontra⟩
      · exact check_top_k_ne_top_p _ hbad
      rcases except_bind_eq_error.mp hcontra with hbad | ⟨u5, -, hcontra⟩
      · exact check_max_new_tokens_not_zero_ne_top_p _ hbad
      rcases except_bind_eq_error.mp hcontra with hbad | ⟨u6, -, hcontra⟩
      · exact check_stop_sequences_ne_top_p _ _ hbad
      rcases except_bind_eq_error.mp hcontra with hbad | ⟨sd, -, hcontra⟩
      · exact check_seed_ne_top_p _ _ _ hbad
      rcases except_bind_eq_error.mp hcontra with hbad | ⟨tnt, -, hcontra⟩
      · exact check_top_n_tokens_ne_top_p _ _ hbad
      rcases except_bind_eq_error.mp hcontra with hbad | ⟨u7, -, hcontra⟩
      · exact check_empty_input_ne_top_p _ hbad
      rcases except_bind_eq_error.mp hcontra with hbad | ⟨tr, -, hcontra⟩
      · exact check_truncate_ne_top_p _ _ hbad
      rcases except_bind_eq_error.mp hcontra with hbad | ⟨tup, -, hcontra⟩
      · exact validate_input_ne_top_p _ _ _ _ _ _ hbad
      obtain ⟨i1, i2, i3, i4⟩ := tup
      simp only [] at hcontra
      rcases except_bind_eq_error.mp hcontra with hbad | ⟨gr, -, hcontra⟩
      · exact validate_grammar_ne_top_p _ _ _ hbad
      simp at hcontra
    · intro r hok
      unfold validate at hok
      obtain ⟨u1, -, hok⟩ := except_bind_eq_ok.mp hok
      obtain ⟨u2, -, hok⟩ := except_bind_eq_ok.mp hok
      obtain ⟨u3, -, hok⟩ := except_bind_eq_ok.mp hok
      obtain ⟨u4, -, hok⟩ := except_bind_eq_ok.mp hok
      obtain ⟨tp, htp, hok⟩ := except_bind_eq_ok.mp hok
      obtain ⟨typ, -, hok⟩ := except_bind_eq_ok.mp hok
      obtain ⟨tk, -, hok⟩ := except_bind_eq_ok.mp hok
      obtain ⟨u5, -, hok⟩ := except_bind_eq_ok.mp hok
      obtain ⟨u6, -, hok⟩ := except_bind_eq_ok.mp hok
      obtain ⟨sd, -, hok⟩ := except_bind_eq_ok.mp hok
      obtain ⟨tnt, -, hok⟩ := except_bind_eq_ok.mp hok
      obtain ⟨u7, -, hok⟩ := except_bind_eq_ok.mp hok
      obtain ⟨tr, -, hok⟩ := except_bind_eq_ok.mp hok
      obtain ⟨tup, -, hok⟩ := except_bind_eq_ok.mp hok
      obtain ⟨i1, i2, i3, i4⟩ := tup
      simp only [] at hok
      obtain ⟨gr, -, hok⟩ := except_bind_eq_ok.mp hok
      rw [hnone] at htp
      rw [show check_top_p none = Except.ok (1 : ℚ) from rfl] at htp
      simp only [Except.ok.injEq] at htp
      simp only [Except.ok.injEq] at hok
      subst hok
      exact htp.symm
  · intro x hx hbad htemp hrep hf1 hf2
    unfold validate
    simp [check_best_of_sampling, check_temperature, check_repetition_penalty,
      check_frequency_penalty, check_top_p, hx, hbad, htemp, hrep, hf1, hf2]

/-- Witness for C4: `top_p = 2` is rejected with `TopP`; an unset
`top_p` resolves to 1 and does not trigger `TopP`. -/
theorem validate_top_p_semantics_witness :
    validate vFixture envHello reqTopPbad = .error .topP
    ∧ validate vFixture envHello reqOk ≠ .error .topP
    ∧ reqOkResult.parameters.top_p = 1 := by
  refine ⟨?_, ?_, ?_⟩
  · exact (validate_top_p_semantics vFixture envHello reqTopPbad).2 2 rfl
      (by decide) (by decide) (by decide) (by decide) (by decide)
  · exact ((validate_top_p_semantics vFixture envHello reqOk).1 rfl).1
  · exact ((validate_top_p_semantics vFixture envHello reqOk).1 rfl).2 reqOkResult (by decide)

/-- C5: a request with `best_of > 1` and an explicit seed fails with
`BestOfSeed`, even when sampling is enabled, provided the checks the
source runs before the seed check pass (the source short-circuits on
the first failing check). -/
theorem validate_best_of_seed_semantics (v : Validation) (env : Env) (req : GenerateRequest)
    (s : Nat) (tp typ : ℚ) (tk : Nat)
    (hbo : 1 < req.parameters.best_of.getD 1)
    (hseed : req.parameters.seed = some s)
    (hsampling : (req.parameters.do_sample || req.parameters.temperature.isSome
      || req.parameters.top_k.isSome || req.parameters.top_p.isSome
      || req.parameters.typical_p.isSome) = true)
    (htemp : ¬ req.parameters.temperature.getD 1 ≤ 0)
    (hrep : ¬ req.parameters.repetition_penalty.getD 1 ≤ 0)
    (hf1 : -2 ≤ req.parameters.frequency_penalty.getD 0)
    (hf2 : req.parameters.frequency_penalty.getD 0 ≤ 2)
    (htp : check_top_p req.parameters.top_p = .ok tp)
    (htyp : check_typical_p req.parameters.typical_p = .ok typ)
    (htk : check_top_k req.parameters.top_k = .ok tk)
    (hmnt : req.parameters.max_new_tokens ≠ some 0)
    (hstop : ¬ req.parameters.stop.length > v.max_stop_sequences) :
    validate v env req = .error .bestOfSeed := by
  unfold validate
  simp [check_best_of_sampling, check_temperature, check_repetition_penalty,
    check_frequency_penalty, check_max_new_tokens_not_zero, check_stop_sequences,
    check_seed, hsampling, htemp, hrep, hf1, hf2, htp, htyp, htk, hmnt, hstop, hseed, hbo]

/-- Witness for C5: `best_of = 2`, `do_sample = true`, explicit seed 0
fails with `BestOfSeed`. -/
theorem validate_best_of_seed_semantics_witness :
    validate vFixture envHello reqBestOfSeed = .error .bestOfSeed :=
  validate_best_of_seed_semantics vFixture envHello reqBestOfSeed 0 1 1 0
    (by decide) rfl rfl (by decide) (by decide) (by decide) (by decide)
    rfl rfl rfl (by simp [reqBestOfSeed]) (by decide)

/-- Witness for C10: the accepted fixture request keeps the single
token id as the (trivial) suffix of its encoding. -/
theorem validate_input_ids_are_suffix_witness :
    ∃ (tr : Option Nat) (enc : Encoding) (chunks : List Chunk),
      check_truncate vFixture.max_input_length reqOk.parameters.truncate = .ok tr
      ∧ prepare_input envHello reqOk.inputs tr reqOk.add_special_tokens = .ok (enc, chunks)
      ∧ (∀ t2 : Option Nat, prepare_input envHello reqOk.inputs t2 reqOk.add_special_tokens
          = prepare_input envHello reqOk.inputs tr reqOk.add_special_tokens)
      ∧ reqOkResult.input_ids = some (enc.ids.drop (enc.ids.length - reqOkResult.input_length))
      ∧ enc.ids.drop (enc.ids.length - reqOkResult.input_length) <:+ enc.ids
      ∧ (enc.ids.drop (enc.ids.length - reqOkResult.input_length)).length
          = reqOkResult.input_length :=
  validate_input_ids_are_suffix vFixture envHello reqOk reqOkResult (by decide)

/-- C6: a JSON-Schema grammar supplied as a string is re-parsed by
serde_json; whenever the parsed schema value has no `properties` key,
grammar compilation fails with a grammar validation error
(`InvalidGrammar`), whatever the schema validator does — so
independently of any other schema validity.  (A non-object parse
result has no `properties` key by definition of `Value::get`, so it is
always rejected by this path.) -/
theorem grammar_requires_properties (env : Env) (s : List Char) (j : Json)
    (hparse : env.parse_json s = .ok j)
    (hprops : j.get "properties".toList = none) :
    ∃ m, validate_grammar env false (some (.json (.str s))) = .error (.invalidGrammar m) := by
  cases hcs : env.compile_schema j with
  | error e2 =>
    exact ⟨e2, by simp [validate_grammar, hparse, Except.mapError, hcs]⟩
  | ok u =>
    cases u
    refine ⟨"Grammar must have a properties field".toList, ?_⟩
    simp only [validate_grammar, hparse, Except.mapError, hcs]
    rw [if_neg (by decide), hprops]

/-- Witness for C6: a string grammar parsing to the empty JSON object
(no `properties`) is rejected with `InvalidGrammar` even though the
schema compiler accepts it. -/
theorem grammar_requires_properties_witness :
    ∃ m, validate_grammar envGrammar false (some (.json (.str "x".toList)))
        = .error (.invalidGrammar m) :=
  grammar_requires_properties envGrammar "x".toList (Json.obj []) rfl rfl

/-- Counterexample for C2: a video markup wrapping a base64 data URI is
NOT detected by the video scan (`VIDEO_RE` only matches
`<video>(http://…)` / `<video>(https://…)`): under a vision config the
whole input is passed through as a single Text chunk, no Video chunk is
emitted and no fetch happens, even though `fetch_video` itself supports
`<video>(data:…)` inputs. -/
theorem video_data_uri_not_scanned :
    prepare_query_chunks envC2 envC2.config envC2.preprocessor_config
        "<video>(data:video/mp4;base64,AAAA)".toList
      = .ok ("<video>(data:video/mp4;base64,AAAA)".toList,
          [Chunk.text "<video>(data:video/mp4;base64,AAAA)".toList]) := by
  decide

/-- Every span emitted by `findIterGo` is a genuine match: applying the
matcher at the span's start position in the original string yields
exactly the span's length.  The invariant is that the scanned remainder
is the drop of the original string at the cursor. -/
theorem findIterGo_mem (matchLen : List Char → Option Nat) (inputs : List Char) :
    ∀ (fuel pos : Nat) (l : List Char), l = inputs.drop pos →
      ∀ s e : Nat, (s, e) ∈ findIterGo matchLen fuel l pos →
        matchLen (inputs.drop s) = some (e - s) := by
  intro fuel
  induction fuel with
  | zero => intro pos l hl s e hmem; simp [findIterGo] at hmem
  | succ n ih =>
    intro pos l hl s e hmem
    cases l with
    | nil => simp [findIterGo] at hmem
    | cons c t =>
      cases hml : matchLen (c :: t) with
      | none =>
        simp only [findIterGo, hml] at hmem
        exact ih (pos + 1) t (by rw [← List.drop_drop, ← hl]; rfl) s e hmem
      | some k =>
        simp only [findIterGo, hml] at hmem
        by_cases hk : k = 0
        · rw [if_pos hk] at hmem; simp at hmem
        · rw [if_neg hk] at hmem
          rcases List.mem_cons.mp hmem with heq | htail
          · obtain ⟨hs, he⟩ := Prod.mk.injEq .. |>.mp heq
            subst hs; subst he
            rw [← hl, hml, Nat.add_sub_cancel_left]
          · exact ih (pos + k) ((c :: t).drop k) (by rw [← List.drop_drop, ← hl])
              s e htail

/-- Every span `(s, e)` of `findIter matchLen inputs` is a match of the
scanner at position `s` of length `e - s`. -/
theorem findIter_mem (matchLen : List Char → Option Nat) (inputs : List Char)
    (s e : Nat) (hmem : (s, e) ∈ findIter matchLen inputs) :
    matchLen (inputs.drop s) = some (e - s) :=
  findIterGo_mem matchLen inputs inputs.length 0 inputs (List.drop_zero (l := inputs)).symm
    s e hmem

/-- C2 (amended): the video scan detects only references wrapping an
http(s) URL — on every prompt, every span emitted by the `VIDEO_RE`
scan starts with `<video>(http` — and for a scanned reference (shown at
a representative one-match prompt) the Qwen2-VL family emits a Video
chunk and replaces the markup in the tokenizer query with the
placeholder expansion, while every other vision-capable family reaches
the `unimplemented!` panic of `video_tokens` after a successful fetch. -/
theorem video_http_url_scanned (env : Env) (pre : Option HubPreprocessorConfig) :
    (∀ (inputs : List Char) (s e : Nat), (s, e) ∈ findIter videoMatchLen inputs →
      "<video>(http".toList <+: inputs.drop s)
    ∧ (∀ (feat : Nat → Nat → Nat) (pv : ProcessedVideo),
        env.fetch_video "<video>(http://v.mp4)".toList 360 420 = .ok pv →
        ∃ vt, video_tokens (Config.qwen2Vl feat) pv.height pv.width
            (pv.sampled_frames : ℚ) = some vt
          ∧ prepare_query_chunks env (some (Config.qwen2Vl feat)) pre
              "a<video>(http://v.mp4)b".toList
            = .ok ("a".toList ++ vt ++ "b".toList,
                [Chunk.text "a".toList,
                 Chunk.video
                   { data := pv.frames.flatten, mimetype := pv.mimetype,
                     width := pv.width, height := pv.height,
                     num_frames := pv.frames.length },
                 Chunk.text "b".toList]))
    ∧ (∀ config : Config, config.isVision = true →
        (∀ feat, config ≠ Config.qwen2Vl feat) →
        ∀ pv : ProcessedVideo,
        env.fetch_video "<video>(http://v.mp4)".toList 224 224 = .ok pv →
        prepare_query_chunks env (some config) pre "a<video>(http://v.mp4)b".toList
          = .error (.panicked "unimplemented video tokens".toList)) := by
  refine ⟨?_, ?_, ?_⟩
  · intro inputs s e hmem
    have h := findIter_mem videoMatchLen inputs s e hmem
    by_contra hnp
    unfold videoMatchLen at h
    rw [if_neg hnp] at h
    exact Option.noConfusion h
  · intro feat pv hfetch
    refine ⟨_, rfl, ?_⟩
    have hscanV : findIter videoMatchLen "a<video>(http://v.mp4)b".toList = [(1, 22)] := by
      decide
    have hscanI : findIter imageMatchLen "a<video>(http://v.mp4)b".toList = [] := by
      decide
    unfold prepare_query_chunks
    rw [hscanV, hscanI]
    simp only [Config.isVision, if_true]
    unfold videoPass
    rw [show fetch_video_for_config env (Config.qwen2Vl feat)
        (subSlice "a<video>(http://v.mp4)b".toList 1 22)
      = (env.fetch_video "<video>(http://v.mp4)".toList 360 420).mapError VideoError.toVErr
      from rfl]
    rw [hfetch]
    simp only [Except.mapError]
    unfold videoPass imagePass
    simp only [video_tokens]
    rw [show pushText "a<video>(http://v.mp4)b".toList 0 1 [] [] = ([Chunk.text "a".toList],
      "a".toList) from by decide]
    simp [image_tokens_fixup]
  · intro config hv hne pv hfetch
    have hscanV : findIter videoMatchLen "a<video>(http://v.mp4)b".toList = [(1, 22)] := by
      decide
    have hscanI : findIter imageMatchLen "a<video>(http://v.mp4)b".toList = [] := by
      decide
    have hsub : subSlice "a<video>(http://v.mp4)b".toList 1 22
        = "<video>(http://v.mp4)".toList := by decide
    cases config
    case qwen2Vl feat => exact absurd rfl (hne feat)
    case other => simp [Config.isVision] at hv
    all_goals
      unfold prepare_query_chunks
      rw [hscanV, hscanI]
      simp only [Config.isVision, if_true]
      unfold videoPass
      rw [hsub]
      simp only [fetch_video_for_config, hfetch, Except.mapError, video_tokens]

/-- Witness for the amended C2 theorem, at the constant fetcher: the
single emitted span of the representative prompt indeed starts with
`<video>(http`, Qwen2-VL accepts it with the expansion, and the Idefics
family panics on it. -/
theorem video_http_url_scanned_witness :
    ("<video>(http".toList <+: "a<video>(http://v.mp4)b".toList.drop 1)
    ∧ (∃ vt, video_tokens (Config.qwen2Vl (fun _ _ => 0)) pvFixture.height pvFixture.width
          (pvFixture.sampled_frames : ℚ) = some vt
        ∧ prepare_query_chunks envC2v (some (Config.qwen2Vl (fun _ _ => 0))) none
            "a<video>(http://v.mp4)b".toList
          = .ok ("a".toList ++ vt ++ "b".toList,
              [Chunk.text "a".toList,
               Chunk.video
                 { data := pvFixture.frames.flatten, mimetype := pvFixture.mimetype,
                   width := pvFixture.width, height := pvFixture.height,
                   num_frames := pvFixture.frames.length },
               Chunk.text "b".toList]))
    ∧ prepare_query_chunks envC2v (some Config.idefics) none
        "a<video>(http://v.mp4)b".toList
      = .error (.panicked "unimplemented video tokens".toList) :=
  ⟨(video_http_url_scanned envC2v none).1 "a<video>(http://v.mp4)b".toList 1 22 (by decide),
   (video_http_url_scanned envC2v none).2.1 (fun _ _ => 0) pvFixture rfl,
   (video_http_url_scanned envC2v none).2.2 Config.idefics rfl
     (fun feat h => Config.noConfusion h) pvFixture rfl⟩

/-! ## String lemmas for the Idefics2 fake-token count (C8) -/

-- basic equation lemmas
theorem repList_zero (l : List Char) : repList 0 l = [] := rfl

theorem repList_succ (n : Nat) (l : List Char) : repList (n + 1) l = l ++ repList n l := by
  simp [repList, List.replicate_succ]

theorem repList_length (n : Nat) (l : List Char) : (repList n l).length = n * l.length := by
  induction n with
  | zero => simp [repList]
  | succ n ih => rw [repList_succ]; simp [ih, Nat.succ_mul]; omega

theorem replaceList_nil (pat rep : List Char) : replaceList pat rep [] = [] := by
  rw [replaceList]

theorem replaceList_cons_pos {pat : List Char} (rep : List Char) {c : Char} {t : List Char}
    (h1 : pat ≠ []) (h2 : pat <+: (c :: t)) :
    replaceList pat rep (c :: t) = rep ++ replaceList pat rep ((c :: t).drop pat.length) := by
  rw [replaceList]
  rw [dif_pos ⟨h1, h2⟩]

theorem replaceList_cons_neg {pat : List Char} (rep : List Char) {c : Char} {t : List Char}
    (h : ¬ (pat ≠ [] ∧ pat <+: (c :: t))) :
    replaceList pat rep (c :: t) = c :: replaceList pat rep t := by
  rw [replaceList]
  rw [dif_neg h]

theorem countOccs_nil (pat : List Char) : countOccs pat [] = 0 := by
  rw [countOccs]

theorem countOccs_cons_pos {pat : List Char} {c : Char} {t : List Char}
    (h1 : pat ≠ []) (h2 : pat <+: (c :: t)) :
    countOccs pat (c :: t) = 1 + countOccs pat ((c :: t).drop pat.length) := by
  rw [countOccs]
  rw [dif_pos ⟨h1, h2⟩]

theorem countOccs_cons_neg {pat : List Char} {c : Char} {t : List Char}
    (h : ¬ (pat ≠ [] ∧ pat <+: (c :: t))) :
    countOccs pat (c :: t) = countOccs pat t := by
  rw [countOccs]
  rw [dif_neg h]

theorem not_prefix_of_getElem_ne (p l : List Char) (k : Nat) (hk : k < p.length)
    (hne : p[k]? ≠ l[k]?) : ¬ p <+: l := by
  rintro ⟨t, rfl⟩
  rw [List.getElem?_append, if_pos hk] at hne
  exact hne rfl

theorem safe_head (p l y : List Char) (i : Nat) (hp : 0 < p.length) (hi : i < l.length)
    (hne : p[0]? ≠ l[i]?) : ¬ p <+: (l ++ y).drop i := by
  apply not_prefix_of_getElem_ne p _ 0 hp
  rw [List.getElem?_drop, Nat.add_zero, List.getElem?_append, if_pos hi]
  exact hne

theorem safe_second (p l y : List Char) (i : Nat) (hp : 1 < p.length) (hi : i + 1 < l.length)
    (hne : p[1]? ≠ l[i + 1]?) : ¬ p <+: (l ++ y).drop i := by
  apply not_prefix_of_getElem_ne p _ 1 hp
  rw [List.getElem?_drop, List.getElem?_append, if_pos hi]
  exact hne

theorem replaceList_append_safe (pat rep : List Char) :
    ∀ (x y : List Char), (∀ i, i < x.length → ¬ pat <+: (x ++ y).drop i) →
      replaceList pat rep (x ++ y) = x ++ replaceList pat rep y := by
  intro x
  induction x with
  | nil => intro y _; rfl
  | cons c x2 ih =>
    intro y hsafe
    have h0 : ¬ pat <+: (c :: (x2 ++ y)) := by
      have := hsafe 0 (by simp)
      simpa using this
    rw [List.cons_append, replaceList_cons_neg rep (fun hc => h0 hc.2),
      ih y (fun i hi => by
        have := hsafe (i + 1) (by simpa using Nat.succ_lt_succ hi)
        simpa [List.drop_succ_cons] using this)]
    rfl

theorem countOccs_append_safe (pat : List Char) :
    ∀ (x y : List Char), (∀ i, i < x.length → ¬ pat <+: (x ++ y).drop i) →
      countOccs pat (x ++ y) = countOccs pat y := by
  intro x
  induction x with
  | nil => intro y _; rfl
  | cons c x2 ih =>
    intro y hsafe
    have h0 : ¬ pat <+: (c :: (x2 ++ y)) := by
      have := hsafe 0 (by simp)
      simpa using this
    rw [List.cons_append, countOccs_cons_neg (fun hc => h0 hc.2),
      ih y (fun i hi => by
        have := hsafe (i + 1) (by simpa using Nat.succ_lt_succ hi)
        simpa [List.drop_succ_cons] using this)]

theorem replaceList_prefix_step (pat rep s : List Char) (hp : pat ≠ []) (hpre : pat <+: s) :
    replaceList pat rep s = rep ++ replaceList pat rep (s.drop pat.length) := by
  cases s with
  | nil =>
    exact absurd (List.prefix_nil.mp hpre) hp
  | cons c t => exact replaceList_cons_pos rep hp hpre

theorem countOccs_prefix_step (pat s : List Char) (hp : pat ≠ []) (hpre : pat <+: s) :
    countOccs pat s = 1 + countOccs pat (s.drop pat.length) := by
  cases s with
  | nil =>
    exact absurd (List.prefix_nil.mp hpre) hp
  | cons c t => exact countOccs_cons_pos hp hpre

-- block-safety lemmas, pattern FAKE ++ FAKE
theorem safeFF_T (y : List Char) :
    ∀ i, i < ("test".toList).length → ¬ (FAKE ++ FAKE) <+: ("test".toList ++ y).drop i := by
  intro i hi
  rw [show ("test".toList).length = 4 from by decide] at hi
  interval_cases i <;>
    exact safe_head _ _ _ _ (by decide) (by decide) (by decide)

theorem safeFF_IMAGE (y : List Char) :
    ∀ i, i < IMAGE.length → ¬ (FAKE ++ FAKE) <+: (IMAGE ++ y).drop i := by
  intro i hi
  have hi7 : i < 7 := by rw [show IMAGE.length = 7 from by decide] at hi; exact hi
  interval_cases i
  · exact safe_second _ _ _ _ (by decide) (by decide) (by decide)
  · exact safe_head _ _ _ _ (by decide) (by decide) (by decide)
  · exact safe_head _ _ _ _ (by decide) (by decide) (by decide)
  · exact safe_head _ _ _ _ (by decide) (by decide) (by decide)
  · exact safe_head _ _ _ _ (by decide) (by decide) (by decide)
  · exact safe_head _ _ _ _ (by decide) (by decide) (by decide)
  · exact safe_head _ _ _ _ (by decide) (by decide) (by decide)

theorem safeFF_FAKE_tail (y : List Char) :
    ∀ i, 1 ≤ i → i < FAKE.length → ¬ (FAKE ++ FAKE) <+: (FAKE ++ y).drop i := by
  intro i h1 h2
  have h25 : i < 25 := by rw [show FAKE.length = 25 from by decide] at h2; exact h2
  interval_cases i <;>
    exact safe_head _ _ _ _ (by decide) (by decide) (by decide)

theorem safeFF_FAKE_head_IMAGE (z : List Char) :
    ¬ (FAKE ++ FAKE) <+: FAKE ++ (IMAGE ++ z) := by
  rw [List.prefix_append_right_inj]
  exact not_prefix_of_getElem_ne _ _ 1 (by decide)
    (by rw [List.getElem?_append, if_pos (by decide)]; decide)

-- block-safety lemmas, pattern FAKE
theorem safeF_T (y : List Char) :
    ∀ i, i < ("test".toList).length → ¬ FAKE <+: ("test".toList ++ y).drop i := by
  intro i hi
  rw [show ("test".toList).length = 4 from by decide] at hi
  interval_cases i <;>
    exact safe_head _ _ _ _ (by decide) (by decide) (by decide)

theorem safeF_IMAGE (y : List Char) :
    ∀ i, i < IMAGE.length → ¬ FAKE <+: (IMAGE ++ y).drop i := by
  intro i hi
  have hi7 : i < 7 := by rw [show IMAGE.length = 7 from by decide] at hi; exact hi
  interval_cases i
  · exact safe_second _ _ _ _ (by decide) (by decide) (by decide)
  · exact safe_head _ _ _ _ (by decide) (by decide) (by decide)
  · exact safe_head _ _ _ _ (by decide) (by decide) (by decide)
  · exact safe_head _ _ _ _ (by decide) (by decide) (by decide)
  · exact safe_head _ _ _ _ (by decide) (by decide) (by decide)
  · exact safe_head _ _ _ _ (by decide) (by decide) (by decide)
  · exact safe_head _ _ _ _ (by decide) (by decide) (by decide)

-- safety over a repeated IMAGE block
theorem safeFF_repIMAGE (y : List Char) : ∀ (s : Nat),
    ∀ i, i < (repList s IMAGE).length → ¬ (FAKE ++ FAKE) <+: (repList s IMAGE ++ y).drop i := by
  intro s
  induction s generalizing y with
  | zero => intro i hi; simp [repList] at hi
  | succ s ih =>
    intro i hi
    rw [repList_succ, List.append_assoc]
    rcases Nat.lt_or_ge i IMAGE.length with h7 | h7
    · exact safeFF_IMAGE _ i h7
    · obtain ⟨j, rfl⟩ : ∃ j, i = IMAGE.length + j := ⟨i - IMAGE.length, by omega⟩
      rw [List.drop_append]
      apply ih
      rw [repList_length (s + 1) IMAGE, show IMAGE.length = 7 from by decide] at hi
      rw [repList_length s IMAGE, show IMAGE.length = 7 from by decide]
      omega

theorem safeF_repIMAGE (y : List Char) : ∀ (s : Nat),
    ∀ i, i < (repList s IMAGE).length → ¬ FAKE <+: (repList s IMAGE ++ y).drop i := by
  intro s
  induction s generalizing y with
  | zero => intro i hi; simp [repList] at hi
  | succ s ih =>
    intro i hi
    rw [repList_succ, List.append_assoc]
    rcases Nat.lt_or_ge i IMAGE.length with h7 | h7
    · exact safeF_IMAGE _ i h7
    · obtain ⟨j, rfl⟩ : ∃ j, i = IMAGE.length + j := ⟨i - IMAGE.length, by omega⟩
      rw [List.drop_append]
      apply ih
      rw [repList_length (s + 1) IMAGE, show IMAGE.length = 7 from by decide] at hi
      rw [repList_length s IMAGE, show IMAGE.length = 7 from by decide]
      omega

-- stepping lemmas
theorem replaceList_T_step (y : List Char) :
    replaceList (FAKE ++ FAKE) FAKE ("test".toList ++ y)
      = "test".toList ++ replaceList (FAKE ++ FAKE) FAKE y :=
  replaceList_append_safe _ _ _ _ (safeFF_T y)

theorem replaceList_G_step (s : Nat) (y : List Char) :
    replaceList (FAKE ++ FAKE) FAKE (repList s IMAGE ++ y)
      = repList s IMAGE ++ replaceList (FAKE ++ FAKE) FAKE y :=
  replaceList_append_safe _ _ _ _ (safeFF_repIMAGE y s)

theorem replaceList_F_before_G_step (s : Nat) (hs : 1 ≤ s) (y : List Char) :
    replaceList (FAKE ++ FAKE) FAKE (FAKE ++ (repList s IMAGE ++ y))
      = FAKE ++ replaceList (FAKE ++ FAKE) FAKE (repList s IMAGE ++ y) := by
  obtain ⟨s2, rfl⟩ : ∃ s2, s = s2 + 1 := ⟨s - 1, by omega⟩
  apply replaceList_append_safe
  intro i hi
  rcases Nat.eq_zero_or_pos i with rfl | h1
  · simp only [List.drop_zero]
    rw [repList_succ, List.append_assoc]
    exact safeFF_FAKE_head_IMAGE _
  · exact safeFF_FAKE_tail _ i h1 hi

theorem replaceList_match_step (y : List Char) :
    replaceList (FAKE ++ FAKE) FAKE ((FAKE ++ FAKE) ++ y)
      = FAKE ++ replaceList (FAKE ++ FAKE) FAKE y := by
  rw [replaceList_prefix_step _ _ _ (by decide) (List.prefix_append _ _)]
  rw [List.drop_left]

theorem replaceList_FAKE_last : replaceList (FAKE ++ FAKE) FAKE FAKE = FAKE := by
  have h := replaceList_append_safe (FAKE ++ FAKE) FAKE FAKE [] (by decide)
  simpa [replaceList_nil] using h

-- the collapsed middle
theorem rep_mid (s : Nat) : ∀ n : Nat,
    replaceList (FAKE ++ FAKE) FAKE
        (repList n ((FAKE ++ FAKE) ++ repList s IMAGE) ++ FAKE)
      = repList n (FAKE ++ repList s IMAGE) ++ FAKE := by
  intro n
  induction n with
  | zero =>
    simp only [repList_zero, List.nil_append]
    exact replaceList_FAKE_last
  | succ n ih =>
    rw [repList_succ, repList_succ, List.append_assoc, List.append_assoc,
      replaceList_match_step, replaceList_G_step, ih]
    simp [List.append_assoc]

-- E ++ E normal form
theorem EE_split (s : Nat) :
    repList 5 (FAKE ++ repList s IMAGE ++ FAKE) ++ repList 5 (FAKE ++ repList s IMAGE ++ FAKE)
      = FAKE ++ (repList s IMAGE
          ++ (repList 9 ((FAKE ++ FAKE) ++ repList s IMAGE) ++ FAKE)) := by
  show repList 5 _ ++ repList 5 _ = _
  simp only [show (5 : Nat) = 4 + 1 from rfl, show (4 : Nat) = 3 + 1 from rfl,
    show (3 : Nat) = 2 + 1 from rfl, show (2 : Nat) = 1 + 1 from rfl,
    show (9 : Nat) = 8 + 1 from rfl, show (8 : Nat) = 7 + 1 from rfl,
    show (7 : Nat) = 6 + 1 from rfl, show (6 : Nat) = 5 + 1 from rfl]
  simp [repList_succ, repList_zero, List.append_assoc]

-- the full fix-up computation
theorem fixup_query (s : Nat) (hs : 1 ≤ s) :
    replaceList (FAKE ++ FAKE) FAKE
        ("test".toList
          ++ (repList 5 (FAKE ++ repList s IMAGE ++ FAKE)
            ++ repList 5 (FAKE ++ repList s IMAGE ++ FAKE)))
      = "test".toList ++ (FAKE ++ (repList s IMAGE
          ++ (repList 9 (FAKE ++ repList s IMAGE) ++ FAKE))) := by
  rw [EE_split, replaceList_T_step, replaceList_F_before_G_step s hs,
    replaceList_G_step, rep_mid]

-- counting
theorem count_mid (s : Nat) : ∀ n : Nat,
    countOccs FAKE (repList n (FAKE ++ repList s IMAGE) ++ FAKE) = n + 1 := by
  intro n
  induction n with
  | zero =>
    simp only [repList_zero, List.nil_append]
    rw [countOccs_prefix_step FAKE FAKE (by decide) (List.prefix_refl _)]
    rw [List.drop_length, countOccs_nil]
  | succ n ih =>
    rw [repList_succ, List.append_assoc, List.append_assoc,
      countOccs_prefix_step FAKE _ (by decide) (List.prefix_append _ _),
      List.drop_left, countOccs_append_safe _ _ _ (safeF_repIMAGE _ s), ih]
    omega

theorem count_final (s : Nat) :
    countOccs FAKE ("test".toList ++ (FAKE ++ (repList s IMAGE
        ++ (repList 9 (FAKE ++ repList s IMAGE) ++ FAKE)))) = 11 := by
  rw [countOccs_append_safe _ _ _ (safeF_T _),
    countOccs_prefix_step FAKE _ (by decide) (List.prefix_append _ _),
    List.drop_left, countOccs_append_safe _ _ _ (safeF_repIMAGE _ s),
    count_mid s 9]

/-- The raw two-image Idefics2 build (image splitting on): both markups
become `Image` chunks and the query is the leading text followed by the
two 5x-expanded `FAKE`-delimited placeholder strings, to which the
end-of-pass fix-up `replaceList (FAKE ++ FAKE) FAKE` is applied. -/
theorem idefics2_two_images_query (env : Env) (feat : Nat → Nat → Nat)
    (data : List Nat) (mime : List Char) (h w : Nat)
    (hfetch : env.fetch_image "![](data:image/gif;base64,x)".toList
      = .ok (data, mime, h, w)) :
    prepare_query_chunks env (some (Config.idefics2 feat))
        (some (.idefics2Processor true))
        "test![](data:image/gif;base64,x)![](data:image/gif;base64,x)".toList
      = .ok (replaceList (FAKE ++ FAKE) FAKE
              ("test".toList
                ++ repList 5 (FAKE ++ repList (feat h w) IMAGE ++ FAKE)
                ++ repList 5 (FAKE ++ repList (feat h w) IMAGE ++ FAKE)),
            [Chunk.text "test".toList,
             Chunk.image { data := data, mimetype := mime },
             Chunk.image { data := data, mimetype := mime }]) := by
  have hscanV : findIter videoMatchLen
      "test![](data:image/gif;base64,x)![](data:image/gif;base64,x)".toList = [] := by
    decide
  have hscanI : findIter imageMatchLen
      "test![](data:image/gif;base64,x)![](data:image/gif;base64,x)".toList
      = [(4, 32), (32, 60)] := by decide
  have hslice0 : subSlice
      "test![](data:image/gif;base64,x)![](data:image/gif;base64,x)".toList 0 4
      = "test".toList := by decide
  have hslice1 : subSlice
      "test![](data:image/gif;base64,x)![](data:image/gif;base64,x)".toList 4 32
      = "![](data:image/gif;base64,x)".toList := by decide
  have hslice2 : subSlice
      "test![](data:image/gif;base64,x)![](data:image/gif;base64,x)".toList 32 60
      = "![](data:image/gif;base64,x)".toList := by decide
  have hlen :
      ("test![](data:image/gif;base64,x)![](data:image/gif;base64,x)".toList).length
      = 60 := by decide
  unfold prepare_query_chunks
  rw [hscanV, hscanI]
  simp only [Config.isVision, videoPass, imagePass, pushText, hslice0, hslice1,
    hslice2, hfetch, Except.mapError, image_tokens, isImageSplitting,
    image_tokens_fixup, hlen, List.nil_append, List.cons_append,
    eq_self_iff_true, if_true, if_false, ne_eq, reduceIte, not_true,
    not_false_iff]
  simp

/-- C8: Under the Idefics2 family (the placeholder-doubling family) with
image splitting enabled, a prompt consisting of text followed by two
back-to-back image markups yields — after the 5x expansion of each
image's `FAKE`-delimited placeholder string and the single end-of-pass
fix-up collapsing adjacent `FAKE` pairs — exactly 11
`<fake_token_around_image>` boundary markers in the final tokenizer
query (for any per-image slot count of at least one `<image>` token,
the Idefics2 feature count being modelled as an oracle since
`config.rs` is outside the embedded source). -/
theorem idefics2_two_images_eleven_fakes (env : Env) (feat : Nat → Nat → Nat)
    (data : List Nat) (mime : List Char) (h w : Nat)
    (hfetch : env.fetch_image "![](data:image/gif;base64,x)".toList
      = .ok (data, mime, h, w))
    (hslots : 1 ≤ feat h w) :
    ∃ q chunks,
      prepare_query_chunks env (some (Config.idefics2 feat))
          (some (.idefics2Processor true))
          "test![](data:image/gif;base64,x)![](data:image/gif;base64,x)".toList
        = .ok (q, chunks)
      ∧ countOccs FAKE q = 11 := by
  refine ⟨_, _, idefics2_two_images_query env feat data mime h w hfetch, ?_⟩
  rw [List.append_assoc, fixup_query (feat h w) hslots]
  exact count_final (feat h w)

/-- Witness for C8 at the constant fetcher `envI2` with one slot per
split: the two-image prompt is accepted and its final query holds
exactly 11 fake tokens. -/
theorem idefics2_two_images_eleven_fakes_witness :
    ∃ q chunks,
      prepare_query_chunks envI2 (some (Config.idefics2 (fun _ _ => 1)))
          (some (.idefics2Processor true))
          "test![](data:image/gif;base64,x)![](data:image/gif;base64,x)".toList
        = .ok (q, chunks)
      ∧ countOccs FAKE q = 11 :=
  idefics2_two_images_eleven_fakes envI2 (fun _ _ => 1) [0] "image/gif".toList 1 1
    rfl (by decide)
